import Mathlib

/-!
# Verification of the Docker-to-CloudWatch log shipper (`src/main.py`)

Shallow embedding of the log-shipping pipeline:

* `push_log_events` embeds the Python function of the same name
  (src/main.py lines 69-111).  The remote sink is modelled by a finite
  script of responses (`SinkResp`), consumed one entry per network call;
  an exhausted script under a pending call models non-termination
  (`Option.none`), which is exactly the unbounded-retry livelock case.
* `pumpLine` / `pumpLines` embed the streaming loop of `main`
  (lines 149-166), `drain` embeds the drain-pass list comprehension
  (lines 169-175), `innerBody` / `innerTry` embed the inner
  try/except/finally (lines 147-189), and `mainRun` embeds the whole
  of `main` (lines 114-196) with its provisioning steps and outer
  exception handlers.
* Observable behaviour is recorded as a trace of events `Ev`: network
  calls (with the batch, the held cursor and the `sequenceToken`
  actually included in the request), sleeps, log-error markers, and the
  container `stop` / `remove` cleanup calls.

Wall-clock timestamps are modelled by a `Nat` clock that advances once
per line read; only monotonicity and per-event freshness matter to the
properties proved here.
-/

namespace LogShipper

/-- Python whitespace for `str.strip()` (ASCII subset: space, tab,
newline, carriage return, vertical tab, form feed). -/
def isPySpace (c : Char) : Bool :=
  c = ' ' || c = '\t' || c = '\n' || c = '\r' || c = Char.ofNat 11 || c = Char.ofNat 12

/-- Embeds Python `line.strip()`: remove leading and trailing whitespace. -/
def pyStrip (s : String) : String :=
  ⟨((s.data.dropWhile isPySpace).reverse.dropWhile isPySpace).reverse⟩

/-- A CloudWatch log event as built at src/main.py lines 152-155:
a wall-clock timestamp and the stripped message. -/
structure LogEvent where
  timestamp : Nat
  message : String
deriving DecidableEq, Repr

/-- One scripted response of the remote sink to a `put_log_events` call:
success with a next sequence token, a `ThrottlingException`, or any
other `ClientError`. -/
inductive SinkResp
  | ok (next : String)
  | throttle
  | err
deriving DecidableEq, Repr

/-- Observable events of a run, in order of occurrence. -/
inductive Ev
  /-- A `put_log_events` network call: the batch sent, the value of the
  local `sequence_token` variable at the call, and the `sequenceToken`
  parameter actually included in the request (`none` = omitted). -/
  | call (events : List LogEvent) (cursor : Option String) (token : Option String)
  /-- `time.sleep(n)` (src/main.py line 107). -/
  | sleep (n : Nat)
  /-- `logger.warning("Throttling encountered...")` (line 106). -/
  | warnThrottle
  /-- `logger.error("Failed to push log events...")` (line 110). -/
  | errPush
  /-- `container.stop()` (line 188). -/
  | stop
  /-- `container.remove()` (line 189). -/
  | remove
  /-- `logger.error("Docker API error...")` (line 184). -/
  | errApi
  /-- `logger.error("Docker error...")` (line 192). -/
  | errDocker
  /-- `logger.error("AWS error...")` (line 194). -/
  | errAws
  /-- `logger.error("Unexpected error...")` (line 196). -/
  | errOther
deriving DecidableEq, Repr

/-- Python truthiness of the `sequence_token` variable (`None` and the
empty string are falsy). -/
def truthy : Option String → Bool
  | none => false
  | some s => !s.isEmpty

/-- The `sequenceToken` parameter included in the request: present iff
`if sequence_token:` holds (src/main.py lines 98-99). -/
def tokenParam (c : Option String) : Option String :=
  if truthy c then c else none

/-- Embeds `push_log_events` (src/main.py lines 69-111).  Consumes the
sink script one response per call.  Returns the emitted trace, the
returned sequence token, and the remaining script; `none` models the
non-terminating case where the script is exhausted while a call is
still pending (sustained throttling). -/
def push_log_events (log_events : List LogEvent) :
    List SinkResp → Option String → Option (List Ev × Option String × List SinkResp)
  | script, sequence_token =>
    if log_events.isEmpty then
      some ([], sequence_token, script)
    else
      match script with
      | [] => none
      | SinkResp.ok next :: rest =>
          some ([Ev.call log_events sequence_token (tokenParam sequence_token)],
                some next, rest)
      | SinkResp.throttle :: rest =>
          match push_log_events log_events rest sequence_token with
          | none => none
          | some (t, c, s) =>
              some (Ev.call log_events sequence_token (tokenParam sequence_token)
                      :: Ev.warnThrottle :: Ev.sleep 2 :: t, c, s)
      | SinkResp.err :: rest =>
          some ([Ev.call log_events sequence_token (tokenParam sequence_token), Ev.errPush],
                sequence_token, rest)

/-- The mutable local state of `main` during the pump:
the `log_events` buffer, the `sequence_token` variable, the remaining
sink script, and the wall clock. -/
structure St where
  log_events : List LogEvent
  sequence_token : Option String
  script : List SinkResp
  clock : Nat
deriving DecidableEq, Repr

/-- One iteration of the streaming loop (src/main.py lines 149-166):
strip the line, skip it if empty, otherwise buffer the event and, once
the buffer holds at least 10 events, push it and reset the buffer. -/
def pumpLine (st : St) (line : String) : Option (List Ev × St) :=
  let message := pyStrip line
  if message.isEmpty then
    some ([], { st with clock := st.clock + 1 })
  else
    let buf := st.log_events ++ [⟨st.clock, message⟩]
    if 10 ≤ buf.length then
      match push_log_events buf st.script st.sequence_token with
      | none => none
      | some (t, c, s) =>
          some (t, { log_events := [], sequence_token := c, script := s,
                     clock := st.clock + 1 })
    else
      some ([], { st with log_events := buf, clock := st.clock + 1 })

/-- The whole streaming loop over the lines yielded by the primary
container log stream. -/
def pumpLines : List String → St → Option (List Ev × St)
  | [], st => some ([], st)
  | l :: ls, st =>
    match pumpLine st l with
    | none => none
    | some (t1, st1) =>
      match pumpLines ls st1 with
      | none => none
      | some (t2, st2) => some (t1 ++ t2, st2)

/-- Embeds the drain-pass comprehension (src/main.py lines 169-175):
the events built from the non-empty stripped lines of the secondary
`container.logs()` read, timestamped in order. -/
def drain (clk : Nat) : List String → List LogEvent
  | [] => []
  | l :: ls =>
    let m := pyStrip l
    if m.isEmpty then drain (clk + 1) ls
    else ⟨clk, m⟩ :: drain (clk + 1) ls

/-- The Python exceptions that can arise inside `main`'s outer `try`,
by the handler hierarchy that matters to the code:
`docker.errors.APIError` (a `DockerException`), other
`docker.errors.DockerException`, botocore `ClientError`, and any other
`Exception`. -/
inductive Exc
  | apiError
  | dockerErr
  | clientErr
  | otherErr
deriving DecidableEq, Repr

/-- Outcome of a `create_log_group` / `create_log_stream` remote call:
created, already exists (`ResourceAlreadyExistsException`), or some
other `ClientError`. -/
inductive ProvResp
  | ok
  | already
  | fail
deriving DecidableEq, Repr

/-- The external environment of one run of `main`: the provisioning
outcomes, whether the container starts, the lines yielded by the
primary log stream, an optional exception raised by the streaming loop
after those lines, the lines returned by the secondary drain read, and
the sink's response script. -/
structure Env where
  groupResp : ProvResp
  streamResp : ProvResp
  runOk : Bool
  streamLines : List String
  streamErr : Option Exc
  drainLines : List String
  script : List SinkResp
deriving DecidableEq, Repr

/-- Embeds `create_log_group` (src/main.py lines 38-50): an
already-exists conflict is swallowed (logged), any other `ClientError`
propagates. -/
def create_log_group : ProvResp → Except Exc Unit
  | ProvResp.ok => Except.ok ()
  | ProvResp.already => Except.ok ()
  | ProvResp.fail => Except.error Exc.clientErr

/-- Embeds `create_log_stream` (src/main.py lines 53-66); same
contract as `create_log_group`. -/
def create_log_stream : ProvResp → Except Exc Unit
  | ProvResp.ok => Except.ok ()
  | ProvResp.already => Except.ok ()
  | ProvResp.fail => Except.error Exc.clientErr

/-- Embeds the body of the inner `try` (src/main.py lines 147-181):
the streaming loop, then — unless the stream raised — the drain read,
extension of the buffer, and the final push whose returned token is
discarded (line 179).  `none` models sink-script exhaustion under a
pending call. -/
def innerBody (env : Env) (st : St) : Option (List Ev × Except Exc St) :=
  match pumpLines env.streamLines st with
  | none => none
  | some (t1, st1) =>
    match env.streamErr with
    | some e => some (t1, Except.error e)
    | none =>
      let buf := st1.log_events ++ drain st1.clock env.drainLines
      let st2 : St := { st1 with log_events := buf,
                                 clock := st1.clock + env.drainLines.length }
      if buf.isEmpty then
        some (t1, Except.ok st2)
      else
        match push_log_events buf st2.script st2.sequence_token with
        | none => none
        | some (t2, _c, s) =>
            some (t1 ++ t2, Except.ok { st2 with script := s })

/-- Embeds the inner `try`/`except docker.errors.APIError`/`finally`
(src/main.py lines 147-189): an `APIError` is caught and logged, the
`finally` block always runs `container.stop()` then
`container.remove()`, and any other exception propagates after the
cleanup.  Nothing in `main` reads the loop locals afterwards, so the
result carries only the trace and the exception status. -/
def innerTry (env : Env) (st : St) : Option (List Ev × Except Exc Unit) :=
  match innerBody env st with
  | none => none
  | some (t, Except.ok _) =>
      some (t ++ [Ev.stop, Ev.remove], Except.ok ())
  | some (t, Except.error Exc.apiError) =>
      some (t ++ [Ev.errApi, Ev.stop, Ev.remove], Except.ok ())
  | some (t, Except.error e) =>
      some (t ++ [Ev.stop, Ev.remove], Except.error e)

/-- The outer exception handlers of `main` (src/main.py lines
191-196), in source order: `docker.errors.DockerException` (which an
`APIError` also is), `ClientError`, then the catch-all `Exception`.
`none` would mean no handler matches, i.e. the exception escapes
`main`. -/
def outerHandler : Exc → Option Ev
  | Exc.apiError => some Ev.errDocker
  | Exc.dockerErr => some Ev.errDocker
  | Exc.clientErr => some Ev.errAws
  | Exc.otherErr => some Ev.errOther

/-- Whether this run acquires a container handle: provisioning of the
group and stream succeeded (reaching line 139) and `containers.run`
returned a handle. -/
def acquired (env : Env) : Bool :=
  env.groupResp ≠ ProvResp.fail && env.streamResp ≠ ProvResp.fail && env.runOk

/-- The body of `main`'s outer `try` (src/main.py lines 130-189):
provisioning of the log group and stream, container start, then the
inner `try`.  A provisioning or container-start failure surfaces as an
exception before any streaming happens. -/
def mainBody (env : Env) : Option (List Ev × Except Exc Unit) :=
  match create_log_group env.groupResp with
  | Except.error e => some ([], Except.error e)
  | Except.ok _ =>
    match create_log_stream env.streamResp with
    | Except.error e => some ([], Except.error e)
    | Except.ok _ =>
      if env.runOk then
        innerTry env ⟨[], none, env.script, 0⟩
      else
        some ([], Except.error Exc.dockerErr)

/-- Embeds `main` (src/main.py lines 114-196).  Returns the trace and
either `Except.ok ()` (main returned) or `Except.error e` (an
exception escaped `main` unhandled — shown never to happen);
`none` models non-termination inside `push_log_events`. -/
def mainRun (env : Env) : Option (List Ev × Except Exc Unit) :=
  match mainBody env with
  | none => none
  | some (t, Except.ok u) => some (t, Except.ok u)
  | some (t, Except.error e) =>
      match outerHandler e with
      | some ev => some (t ++ [ev], Except.ok ())
      | none => some (t, Except.error e)

/-- The batches of the `put_log_events` calls of a trace, in order. -/
def callBatches : List Ev → List (List LogEvent)
  | [] => []
  | Ev.call evts _ _ :: t => evts :: callBatches t
  | _ :: t => callBatches t

/-- The `sequence_token` value held at each `put_log_events` call of a
trace, in order. -/
def callCursors : List Ev → List (Option String)
  | [] => []
  | Ev.call _ c _ :: t => c :: callCursors t
  | _ :: t => callCursors t

/-- The `sequenceToken` parameter included in each `put_log_events`
call of a trace (`none` = omitted), in order. -/
def callTokens : List Ev → List (Option String)
  | [] => []
  | Ev.call _ _ tk :: t => tk :: callTokens t
  | _ :: t => callTokens t

/-- The cursor the caller holds after one sink response: the issued
next token on success, unchanged on throttling or on any other error. -/
def nextCursor (c : Option String) : SinkResp → Option String
  | SinkResp.ok n => some n
  | SinkResp.throttle => c
  | SinkResp.err => c

/-- The cursor each successive call should carry, starting from `c`,
as the script is consumed one response per call. -/
def cursorChain (c : Option String) : List SinkResp → List (Option String)
  | [] => []
  | r :: rest => c :: cursorChain (nextCursor c r) rest

/-- The cursor held after consuming a script prefix. -/
def cursorAfter (c : Option String) : List SinkResp → Option String
  | [] => c
  | r :: rest => cursorAfter (nextCursor c r) rest

/-! ## Equations and small laws of the embedded definitions -/

theorem push_log_events_nil (script : List SinkResp) (tok : Option String) :
    push_log_events [] script tok = some ([], tok, script) := by
  rw [push_log_events.eq_def]; simp

theorem push_log_events_cons_nilscript (e : LogEvent) (es : List LogEvent)
    (tok : Option String) :
    push_log_events (e :: es) [] tok = none := by
  rw [push_log_events.eq_def]; simp

theorem push_log_events_cons_ok (e : LogEvent) (es : List LogEvent) (n : String)
    (rest : List SinkResp) (tok : Option String) :
    push_log_events (e :: es) (SinkResp.ok n :: rest) tok =
      some ([Ev.call (e :: es) tok (tokenParam tok)], some n, rest) := by
  rw [push_log_events.eq_def]; simp

theorem push_log_events_cons_err (e : LogEvent) (es : List LogEvent)
    (rest : List SinkResp) (tok : Option String) :
    push_log_events (e :: es) (SinkResp.err :: rest) tok =
      some ([Ev.call (e :: es) tok (tokenParam tok), Ev.errPush], tok, rest) := by
  rw [push_log_events.eq_def]; simp

theorem push_log_events_cons_throttle (e : LogEvent) (es : List LogEvent)
    (rest : List SinkResp) (tok : Option String) :
    push_log_events (e :: es) (SinkResp.throttle :: rest) tok =
      (push_log_events (e :: es) rest tok).map
        (fun r => (Ev.call (e :: es) tok (tokenParam tok)
                     :: Ev.warnThrottle :: Ev.sleep 2 :: r.1, r.2)) := by
  cases h : push_log_events (e :: es) rest tok with
  | none => rw [push_log_events.eq_def]; simp [h]
  | some r => rw [push_log_events.eq_def]; simp [h]

theorem callBatches_append (a b : List Ev) :
    callBatches (a ++ b) = callBatches a ++ callBatches b := by
  induction a with
  | nil => rfl
  | cons e t ih => cases e <;> simp [callBatches, ih]

theorem callCursors_append (a b : List Ev) :
    callCursors (a ++ b) = callCursors a ++ callCursors b := by
  induction a with
  | nil => rfl
  | cons e t ih => cases e <;> simp [callCursors, ih]

theorem callTokens_append (a b : List Ev) :
    callTokens (a ++ b) = callTokens a ++ callTokens b := by
  induction a with
  | nil => rfl
  | cons e t ih => cases e <;> simp [callTokens, ih]

theorem cursorChain_append (c : Option String) (a b : List SinkResp) :
    cursorChain c (a ++ b) = cursorChain c a ++ cursorChain (cursorAfter c a) b := by
  induction a generalizing c with
  | nil => rfl
  | cons r rest ih => simp [cursorChain, cursorAfter, ih]

theorem cursorAfter_append (c : Option String) (a b : List SinkResp) :
    cursorAfter c (a ++ b) = cursorAfter (cursorAfter c a) b := by
  induction a generalizing c with
  | nil => rfl
  | cons r rest ih => simp [cursorAfter, ih]

theorem push_log_events_ne_nilscript (evts : List LogEvent) (hne : evts ≠ [])
    (tok : Option String) :
    push_log_events evts [] tok = none := by
  obtain ⟨e, es, rfl⟩ := List.exists_cons_of_ne_nil hne
  exact push_log_events_cons_nilscript e es tok

theorem push_log_events_ne_ok (evts : List LogEvent) (hne : evts ≠ []) (n : String)
    (rest : List SinkResp) (tok : Option String) :
    push_log_events evts (SinkResp.ok n :: rest) tok =
      some ([Ev.call evts tok (tokenParam tok)], some n, rest) := by
  obtain ⟨e, es, rfl⟩ := List.exists_cons_of_ne_nil hne
  exact push_log_events_cons_ok e es n rest tok

theorem push_log_events_ne_err (evts : List LogEvent) (hne : evts ≠ [])
    (rest : List SinkResp) (tok : Option String) :
    push_log_events evts (SinkResp.err :: rest) tok =
      some ([Ev.call evts tok (tokenParam tok), Ev.errPush], tok, rest) := by
  obtain ⟨e, es, rfl⟩ := List.exists_cons_of_ne_nil hne
  exact push_log_events_cons_err e es rest tok

theorem push_log_events_ne_throttle (evts : List LogEvent) (hne : evts ≠ [])
    (rest : List SinkResp) (tok : Option String) :
    push_log_events evts (SinkResp.throttle :: rest) tok =
      (push_log_events evts rest tok).map
        (fun r => (Ev.call evts tok (tokenParam tok)
                     :: Ev.warnThrottle :: Ev.sleep 2 :: r.1, r.2)) := by
  obtain ⟨e, es, rfl⟩ := List.exists_cons_of_ne_nil hne
  exact push_log_events_cons_throttle e es rest tok

/-- Master structural lemma for a non-empty push: the run consumes a
non-empty script prefix of some length `k`, makes exactly `k` network
calls all carrying the same batch, the same held cursor and the same
`sequenceToken` parameter, returns the cursor dictated by the consumed
responses, and never touches the container handle. -/
theorem push_log_events_spec (evts : List LogEvent) (hne : evts ≠ []) :
    ∀ (script : List SinkResp) (tok : Option String)
      (t : List Ev) (c : Option String) (s : List SinkResp),
      push_log_events evts script tok = some (t, c, s) →
      ∃ k, 1 ≤ k ∧ k ≤ script.length ∧
        s = script.drop k ∧
        callBatches t = List.replicate k evts ∧
        callCursors t = List.replicate k tok ∧
        callCursors t = cursorChain tok (script.take k) ∧
        callTokens t = List.replicate k (tokenParam tok) ∧
        c = cursorAfter tok (script.take k) ∧
        Ev.stop ∉ t ∧ Ev.remove ∉ t := by
  intro script
  induction script with
  | nil =>
    intro tok t c s h
    rw [push_log_events_ne_nilscript evts hne] at h
    exact absurd h (by simp)
  | cons r rest ih =>
    intro tok t c s h
    cases r with
    | ok n =>
      rw [push_log_events_ne_ok evts hne] at h
      obtain ⟨rfl, rfl, rfl⟩ : t = [Ev.call evts tok (tokenParam tok)] ∧ c = some n ∧ s = rest := by
        simpa using h.symm
      refine ⟨1, le_refl 1, by simp, by simp, ?_, ?_, ?_, ?_, ?_, ?_, ?_⟩ <;>
        simp [callBatches, callCursors, callTokens, cursorChain, cursorAfter, nextCursor]
    | throttle =>
      rw [push_log_events_ne_throttle evts hne] at h
      cases hrec : push_log_events evts rest tok with
      | none => rw [hrec] at h; exact absurd h (by simp)
      | some r' =>
        rw [hrec] at h
        obtain ⟨t', c', s'⟩ := r'
        obtain ⟨rfl, rfl, rfl⟩ :
            t = Ev.call evts tok (tokenParam tok) :: Ev.warnThrottle :: Ev.sleep 2 :: t' ∧
              c = c' ∧ s = s' := by
          simpa using h.symm
        obtain ⟨k, hk1, hklen, hs, hb, hc, hcc, htk, hca, hstop, hrem⟩ :=
          ih _ _ _ _ hrec
        refine ⟨k + 1, by omega, by simp; omega, by simpa using hs, ?_, ?_, ?_, ?_, ?_, ?_, ?_⟩
        · simpa [callBatches, List.replicate_succ] using hb
        · simpa [callCursors, List.replicate_succ] using hc
        · simpa [callCursors, cursorChain, nextCursor] using hcc
        · simpa [callTokens, List.replicate_succ] using htk
        · simpa [cursorAfter, nextCursor] using hca
        · simpa using hstop
        · simpa using hrem
    | err =>
      rw [push_log_events_ne_err evts hne] at h
      obtain ⟨rfl, rfl, rfl⟩ :
          t = [Ev.call evts tok (tokenParam tok), Ev.errPush] ∧ c = tok ∧ s = rest := by
        simpa using h.symm
      refine ⟨1, le_refl 1, by simp, by simp, ?_, ?_, ?_, ?_, ?_, ?_, ?_⟩ <;>
        simp [callBatches, callCursors, callTokens, cursorChain, cursorAfter, nextCursor]

/-- Structural lemma for one streaming-loop iteration: it consumes a
script prefix, advances the clock by one, keeps the cursor/call chain
aligned with the consumed responses, never touches the container
handle, and — provided the buffer held at most 9 events — leaves at
most 9 events buffered while every pushed batch has exactly 10. -/
theorem pumpLine_spec (st : St) (l : String) (t : List Ev) (st' : St)
    (h : pumpLine st l = some (t, st')) :
    ∃ k, k ≤ st.script.length ∧
      st'.script = st.script.drop k ∧
      st'.clock = st.clock + 1 ∧
      callCursors t = cursorChain st.sequence_token (st.script.take k) ∧
      st'.sequence_token = cursorAfter st.sequence_token (st.script.take k) ∧
      Ev.stop ∉ t ∧ Ev.remove ∉ t ∧
      (st.log_events.length ≤ 9 →
        st'.log_events.length ≤ 9 ∧ ∀ b ∈ callBatches t, b.length = 10) := by
  cases hm : (pyStrip l).isEmpty with
  | true =>
    simp only [pumpLine, hm, if_true] at h
    obtain ⟨rfl, rfl⟩ : t = [] ∧ st' = { st with clock := st.clock + 1 } := by
      simpa using h.symm
    exact ⟨0, by simp, by simp, by simp, by simp [callCursors, cursorChain],
           by simp [cursorAfter], by simp, by simp, fun h9 => ⟨h9, by simp [callBatches]⟩⟩
  | false =>
    simp only [pumpLine, hm, Bool.false_eq_true, if_false] at h
    set buf := st.log_events ++ [⟨st.clock, pyStrip l⟩] with hbuf
    by_cases hlen : 10 ≤ buf.length
    · simp only [hlen, if_true] at h
      cases hp : push_log_events buf st.script st.sequence_token with
      | none => rw [hp] at h; exact absurd h (by simp)
      | some r =>
        rw [hp] at h
        obtain ⟨tp, c, s⟩ := r
        obtain ⟨rfl, rfl⟩ :
            t = tp ∧ st' = { log_events := [], sequence_token := c, script := s,
                             clock := st.clock + 1 } := by
          simpa using h.symm
        have hnebuf : buf ≠ [] := by simp [hbuf]
        obtain ⟨k, hk1, hklen, hs, hb, _, hcc, _, hca, hstop, hrem⟩ :=
          push_log_events_spec buf hnebuf st.script st.sequence_token _ _ _ hp
        refine ⟨k, hklen, by simpa using hs, by simp, hcc, by simpa using hca,
               hstop, hrem, fun h9 => ⟨by simp, ?_⟩⟩
        intro b hbmem
        rw [hb] at hbmem
        have : b = buf := List.eq_of_mem_replicate hbmem
        subst this
        have : buf.length = st.log_events.length + 1 := by simp [hbuf]
        omega
    · simp only [hlen, if_false] at h
      obtain ⟨rfl, rfl⟩ :
          t = [] ∧ st' = { st with log_events := buf, clock := st.clock + 1 } := by
        simpa using h.symm
      refine ⟨0, by simp, by simp, by simp, by simp [callCursors, cursorChain],
             by simp [cursorAfter], by simp, by simp, fun _ => ⟨?_, by simp [callBatches]⟩⟩
      have : buf.length = st.log_events.length + 1 := by simp [hbuf]
      simp only [St.log_events]
      omega

/-- Structural lemma for the whole streaming loop, by composing
`pumpLine_spec` over the line sequence. -/
theorem pumpLines_spec :
    ∀ (lines : List String) (st : St) (t : List Ev) (st' : St),
      pumpLines lines st = some (t, st') →
      ∃ k, k ≤ st.script.length ∧
        st'.script = st.script.drop k ∧
        st'.clock = st.clock + lines.length ∧
        callCursors t = cursorChain st.sequence_token (st.script.take k) ∧
        st'.sequence_token = cursorAfter st.sequence_token (st.script.take k) ∧
        Ev.stop ∉ t ∧ Ev.remove ∉ t ∧
        (st.log_events.length ≤ 9 →
          st'.log_events.length ≤ 9 ∧ ∀ b ∈ callBatches t, b.length = 10) := by
  intro lines
  induction lines with
  | nil =>
    intro st t st' h
    obtain ⟨rfl, rfl⟩ : t = [] ∧ st' = st := by simpa [pumpLines] using h.symm
    exact ⟨0, by simp, by simp, by simp, by simp [callCursors, cursorChain],
           by simp [cursorAfter], by simp, by simp, fun h9 => ⟨h9, by simp [callBatches]⟩⟩
  | cons l ls ih =>
    intro st t st' h
    simp only [pumpLines] at h
    cases h1 : pumpLine st l with
    | none => rw [h1] at h; exact absurd h (by simp)
    | some r1 =>
      rw [h1] at h
      obtain ⟨t1, st1⟩ := r1
      dsimp only at h
      cases h2 : pumpLines ls st1 with
      | none => rw [h2] at h; exact absurd h (by simp)
      | some r2 =>
        rw [h2] at h
        obtain ⟨t2, st2⟩ := r2
        dsimp only at h
        obtain ⟨rfl, rfl⟩ : t = t1 ++ t2 ∧ st' = st2 := by simpa using h.symm
        obtain ⟨k1, hk1len, hs1, hc1, hcc1, hca1, hst1, hrm1, hinv1⟩ :=
          pumpLine_spec st l t1 st1 h1
        obtain ⟨k2, hk2len, hs2, hc2, hcc2, hca2, hst2, hrm2, hinv2⟩ :=
          ih st1 _ _ h2
        rw [hs1] at hk2len hs2 hcc2 hca2
        rw [hca1] at hcc2 hca2
        refine ⟨k1 + k2, ?_, ?_, ?_, ?_, ?_, ?_, ?_, ?_⟩
        · have := List.length_drop k1 st.script
          omega
        · rw [hs2, List.drop_drop]
        · rw [hc2, hc1]; simp; omega
        · rw [callCursors_append, hcc1, hcc2, List.take_add, cursorChain_append]
        · rw [hca2, List.take_add, cursorAfter_append]
        · simp only [List.mem_append]; tauto
        · simp only [List.mem_append]; tauto
        · intro h9
          obtain ⟨h9', hb1⟩ := hinv1 h9
          obtain ⟨h9'', hb2⟩ := hinv2 h9'
          refine ⟨h9'', ?_⟩
          intro b hb
          rw [callBatches_append, List.mem_append] at hb
          cases hb with
          | inl hb => exact hb1 b hb
          | inr hb => exact hb2 b hb

/-- Under a sink that always succeeds (and has enough scripted
responses), the streaming loop terminates, consumes at most one
response per line, keeps the buffer under the threshold, and delivers
exactly the accepted events: the pushed batches concatenated with the
remaining buffer equal the old buffer followed by the accepted events
of the lines. -/
theorem pumpLines_allOk :
    ∀ (lines : List String) (toks : List String) (st : St),
      st.script = toks.map SinkResp.ok →
      lines.length ≤ toks.length →
      st.log_events.length ≤ 9 →
      ∃ t st' k, pumpLines lines st = some (t, st') ∧ k ≤ lines.length ∧
        st'.script = (toks.drop k).map SinkResp.ok ∧
        st'.log_events.length ≤ 9 ∧
        (callBatches t).flatten ++ st'.log_events = st.log_events ++ drain st.clock lines := by
  intro lines
  induction lines with
  | nil =>
    intro toks st hscript hlen h9
    exact ⟨[], st, 0, by simp [pumpLines], by simp, by simpa using hscript, h9,
           by simp [callBatches, drain]⟩
  | cons l ls ih =>
    intro toks st hscript hlen h9
    cases hm : (pyStrip l).isEmpty with
    | true =>
      have hline : pumpLine st l = some ([], { st with clock := st.clock + 1 }) := by
        simp [pumpLine, hm]
      obtain ⟨t2, st', k, hrun, hk, hs, h9', heq⟩ :=
        ih toks { st with clock := st.clock + 1 } hscript (by simp at hlen ⊢; omega) h9
      refine ⟨t2, st', k, ?_, by simp; omega, hs, h9', ?_⟩
      · simp [pumpLines, hline, hrun]
      · simpa [drain, hm] using heq
    | false =>
      by_cases hth : 10 ≤ (st.log_events ++ [(⟨st.clock, pyStrip l⟩ : LogEvent)]).length
      · -- threshold reached: the batch is pushed against an all-ok script
        obtain ⟨tk, trest, rfl⟩ : ∃ tk trest, toks = tk :: trest := by
          cases toks with
          | nil => simp at hlen
          | cons a b => exact ⟨a, b, rfl⟩
        have hpush : push_log_events (st.log_events ++ [⟨st.clock, pyStrip l⟩])
            st.script st.sequence_token =
            some ([Ev.call (st.log_events ++ [⟨st.clock, pyStrip l⟩])
                     st.sequence_token (tokenParam st.sequence_token)],
                  some tk, trest.map SinkResp.ok) := by
          rw [hscript]
          exact push_log_events_ne_ok _ (by simp) tk _ _
        have hline : pumpLine st l =
            some ([Ev.call (st.log_events ++ [⟨st.clock, pyStrip l⟩])
                     st.sequence_token (tokenParam st.sequence_token)],
                  { log_events := [], sequence_token := some tk,
                    script := trest.map SinkResp.ok, clock := st.clock + 1 }) := by
          simp only [pumpLine, hm, Bool.false_eq_true, if_false, hth, if_true, hpush]
        obtain ⟨t2, st', k, hrun, hk, hs, h9', heq⟩ :=
          ih trest { log_events := [], sequence_token := some tk,
                     script := trest.map SinkResp.ok, clock := st.clock + 1 }
            rfl (by simp at hlen ⊢; omega) (by simp)
        refine ⟨[Ev.call (st.log_events ++ [⟨st.clock, pyStrip l⟩])
                   st.sequence_token (tokenParam st.sequence_token)] ++ t2,
               st', k + 1, ?_, by simp; omega, by simpa using hs, h9', ?_⟩
        · simp [pumpLines, hline, hrun]
        · rw [callBatches_append, List.flatten_append]
          simp only [callBatches, List.flatten_cons, List.flatten_nil,
                     List.append_nil, List.append_assoc]
          rw [heq]
          simp [drain, hm]
      · -- below threshold: the event is buffered
        have hline : pumpLine st l =
            some ([], { st with log_events := st.log_events ++ [⟨st.clock, pyStrip l⟩],
                                clock := st.clock + 1 }) := by
          simp only [pumpLine, hm, Bool.false_eq_true, if_false, hth]
        obtain ⟨t2, st', k, hrun, hk, hs, h9', heq⟩ :=
          ih toks { st with log_events := st.log_events ++ [⟨st.clock, pyStrip l⟩],
                            clock := st.clock + 1 }
            hscript (by simp at hlen ⊢; omega) (by simp at hth ⊢; omega)
        refine ⟨t2, st', k, ?_, by simp; omega, hs, h9', ?_⟩
        · simp [pumpLines, hline, hrun]
        · simp only at heq
          rw [heq]
          simp [drain, hm]

/-- The messages of the drain-pass events are exactly the non-empty
stripped lines, in order. -/
theorem drain_map_message :
    ∀ (lines : List String) (clk : Nat),
      (drain clk lines).map LogEvent.message =
        (lines.filter (fun l => !(pyStrip l).isEmpty)).map pyStrip := by
  intro lines
  induction lines with
  | nil => intro clk; rfl
  | cons l ls ih =>
    intro clk
    cases hm : (pyStrip l).isEmpty with
    | true => simp [drain, hm, List.filter_cons, ih]
    | false => simp [drain, hm, List.filter_cons, ih]

/-- The body of the inner `try` never invokes the container cleanup
operations itself. -/
theorem innerBody_no_cleanup (env : Env) (st : St) (t : List Ev) (r : Except Exc St)
    (h : innerBody env st = some (t, r)) :
    Ev.stop ∉ t ∧ Ev.remove ∉ t := by
  unfold innerBody at h
  cases h1 : pumpLines env.streamLines st with
  | none => rw [h1] at h; exact absurd h (by simp)
  | some r1 =>
    rw [h1] at h
    obtain ⟨t1, st1⟩ := r1
    dsimp only at h
    obtain ⟨_, _, _, _, _, _, hst1, hrm1, _⟩ := pumpLines_spec env.streamLines st t1 st1 h1
    cases he : env.streamErr with
    | some e =>
      rw [he] at h
      obtain ⟨rfl, -⟩ : t = t1 ∧ r = Except.error e := by simpa using h.symm
      exact ⟨hst1, hrm1⟩
    | none =>
      rw [he] at h
      dsimp only at h
      by_cases hbuf : (st1.log_events ++ drain st1.clock env.drainLines).isEmpty
      · rw [if_pos hbuf] at h
        obtain ⟨rfl, -⟩ := by simpa using h.symm
        exact ⟨hst1, hrm1⟩
      · rw [if_neg hbuf] at h
        cases h2 : push_log_events (st1.log_events ++ drain st1.clock env.drainLines)
            st1.script st1.sequence_token with
        | none => rw [h2] at h; exact absurd h (by simp)
        | some r2 =>
          rw [h2] at h
          obtain ⟨t2, c2, s2⟩ := r2
          dsimp only at h
          obtain ⟨rfl, -⟩ : t = t1 ++ t2 ∧ r = Except.ok _ := by simpa using h.symm
          have hne : st1.log_events ++ drain st1.clock env.drainLines ≠ [] := by
            simpa [List.isEmpty_iff] using hbuf
          obtain ⟨_, _, _, _, _, _, _, _, _, hst2, hrm2⟩ :=
            push_log_events_spec _ hne _ _ _ _ _ h2
          constructor <;> simp_all [List.mem_append]

/-- For a run that acquired the container handle, `mainRun` is the
inner `try` wrapped by the outer exception handlers. -/
theorem mainRun_acquired (env : Env) (hg : env.groupResp ≠ ProvResp.fail)
    (hs : env.streamResp ≠ ProvResp.fail) (hr : env.runOk = true) :
    mainRun env =
      match innerTry env ⟨[], none, env.script, 0⟩ with
      | none => none
      | some (t, Except.ok u) => some (t, Except.ok u)
      | some (t, Except.error e) =>
          match outerHandler e with
          | some ev => some (t ++ [ev], Except.ok ())
          | none => some (t, Except.error e) := by
  cases hgr : env.groupResp <;> cases hsr : env.streamResp <;>
    simp_all [mainRun, mainBody, create_log_group, create_log_stream]

/-- For a run that did not acquire the container handle, `main` stops
at the failed provisioning step with a single logged error. -/
theorem mainRun_not_acquired (env : Env) (h : acquired env = false) :
    mainRun env = some ([Ev.errAws], Except.ok ()) ∨
      mainRun env = some ([Ev.errDocker], Except.ok ()) := by
  unfold acquired at h
  cases hgr : env.groupResp <;> cases hsr : env.streamResp <;> cases hrr : env.runOk <;>
    simp_all [mainRun, mainBody, create_log_group, create_log_stream, outerHandler]

instance : DecidableEq (Except Exc Unit) := fun a b =>
  match a, b with
  | Except.ok x, Except.ok y => isTrue (by cases x; cases y; rfl)
  | Except.ok _, Except.error _ => isFalse (by simp)
  | Except.error _, Except.ok _ => isFalse (by simp)
  | Except.error x, Except.error y =>
      if h : x = y then isTrue (by rw [h]) else isFalse (by simp [h])

/-! ## Single-step unfolding lemmas for the streaming loop

These drive the evaluation of concrete scenarios (whnf-evaluating the
loop directly is infeasible for long line sequences). -/

theorem step_skip (l : String) (ls : List String) (evs : List LogEvent)
    (tok : Option String) (S : List SinkResp) (clk : Nat)
    (hm : (pyStrip l).isEmpty = true) :
    pumpLines (l :: ls) ⟨evs, tok, S, clk⟩ = pumpLines ls ⟨evs, tok, S, clk + 1⟩ := by
  simp only [pumpLines, pumpLine, hm, if_true]
  cases h : pumpLines ls ⟨evs, tok, S, clk + 1⟩ with
  | none => rfl
  | some r => simp

theorem step_buffer (l : String) (ls : List String) (evs : List LogEvent)
    (tok : Option String) (S : List SinkResp) (clk : Nat)
    (hm : (pyStrip l).isEmpty = false)
    (hlen : ¬ 10 ≤ evs.length + 1) :
    pumpLines (l :: ls) ⟨evs, tok, S, clk⟩ =
      pumpLines ls ⟨evs ++ [⟨clk, pyStrip l⟩], tok, S, clk + 1⟩ := by
  simp only [pumpLines, pumpLine, hm, Bool.false_eq_true, if_false, List.length_append,
    List.length_cons, List.length_nil, hlen]
  cases h : pumpLines ls ⟨evs ++ [⟨clk, pyStrip l⟩], tok, S, clk + 1⟩ with
  | none => simp [hlen]
  | some r => simp [hlen]

theorem step_push_ok (l : String) (ls : List String) (evs : List LogEvent)
    (tok : Option String) (n : String) (rest : List SinkResp) (clk : Nat)
    (hm : (pyStrip l).isEmpty = false)
    (hlen : 10 ≤ evs.length + 1) :
    pumpLines (l :: ls) ⟨evs, tok, SinkResp.ok n :: rest, clk⟩ =
      (pumpLines ls ⟨[], some n, rest, clk + 1⟩).map
        (fun r => (Ev.call (evs ++ [⟨clk, pyStrip l⟩]) tok (tokenParam tok) :: r.1, r.2)) := by
  have hp := push_log_events_ne_ok (evs ++ [(⟨clk, pyStrip l⟩ : LogEvent)]) (by simp) n rest tok
  simp only [pumpLines, pumpLine, hm, Bool.false_eq_true, if_false, List.length_append,
    List.length_cons, List.length_nil, hlen, if_true, hp]
  cases h : pumpLines ls ⟨[], some n, rest, clk + 1⟩ with
  | none => simp [hlen]
  | some r => simp [hlen]

theorem step_push_err (l : String) (ls : List String) (evs : List LogEvent)
    (tok : Option String) (rest : List SinkResp) (clk : Nat)
    (hm : (pyStrip l).isEmpty = false)
    (hlen : 10 ≤ evs.length + 1) :
    pumpLines (l :: ls) ⟨evs, tok, SinkResp.err :: rest, clk⟩ =
      (pumpLines ls ⟨[], tok, rest, clk + 1⟩).map
        (fun r => (Ev.call (evs ++ [⟨clk, pyStrip l⟩]) tok (tokenParam tok)
                     :: Ev.errPush :: r.1, r.2)) := by
  have hp := push_log_events_ne_err (evs ++ [(⟨clk, pyStrip l⟩ : LogEvent)]) (by simp) rest tok
  simp only [pumpLines, pumpLine, hm, Bool.false_eq_true, if_false, List.length_append,
    List.length_cons, List.length_nil, hlen, if_true, hp]
  cases h : pumpLines ls ⟨[], tok, rest, clk + 1⟩ with
  | none => simp [hlen]
  | some r => simp [hlen]

/-- If the inner body completed normally, the inner `try` appends the
cleanup pair and reports success. -/
theorem innerTry_of_bodyOk (env : Env) (st : St) (t : List Ev) (st' : St)
    (h : innerBody env st = some (t, Except.ok st')) :
    innerTry env st = some (t ++ [Ev.stop, Ev.remove], Except.ok ()) := by
  simp [innerTry, h]

/-- Composing `mainRun` from a successful inner `try` on an acquired
handle. -/
theorem mainRun_of_innerTry_ok (env : Env) (hg : env.groupResp ≠ ProvResp.fail)
    (hs : env.streamResp ≠ ProvResp.fail) (hr : env.runOk = true)
    (t : List Ev) (h : innerTry env ⟨[], none, env.script, 0⟩ = some (t, Except.ok ())) :
    mainRun env = some (t, Except.ok ()) := by
  rw [mainRun_acquired env hg hs hr, h]

/-! ## Concrete scenario environments -/

/-- Twenty-five non-empty lines arriving on the primary stream. -/
def lines25 : List String :=
  ["x", "x", "x", "x", "x", "x", "x", "x", "x", "x", "x", "x", "x", "x", "x",
   "x", "x", "x", "x", "x", "x", "x", "x", "x", "x"]

/-- 25 streamed lines, empty drain, three successful sink responses. -/
def env25 : Env :=
  ⟨ProvResp.ok, ProvResp.ok, true, lines25, none, [],
   [SinkResp.ok "t1", SinkResp.ok "t2", SinkResp.ok "t3"]⟩

/-- 25 streamed lines; the second append fails with a non-throttling
error, the first and third succeed. -/
def env4 : Env :=
  ⟨ProvResp.ok, ProvResp.ok, true, lines25, none, [],
   [SinkResp.ok "t1", SinkResp.err, SinkResp.ok "t3"]⟩

/-- One streamed line, and the drain read returns the same line again
(the behaviour of a non-disjoint secondary read). -/
def env7 : Env :=
  ⟨ProvResp.ok, ProvResp.ok, true, ["x"], none, ["x"], [SinkResp.ok "t1"]⟩

/-- Empty primary stream; the drain read returns 11 non-empty lines. -/
def env1c : Env :=
  ⟨ProvResp.ok, ProvResp.ok, true, [], none,
   ["d", "d", "d", "d", "d", "d", "d", "d", "d", "d", "d"], [SinkResp.ok "t1"]⟩

/-- Eleven streamed lines and two successful sink responses: one
streaming push and one final drain push. -/
def env5c : Env :=
  ⟨ProvResp.ok, ProvResp.ok, true,
   ["x", "x", "x", "x", "x", "x", "x", "x", "x", "x", "x"], none, [],
   [SinkResp.ok "t1", SinkResp.ok "t2"]⟩

/-- A minimal normal run: no streamed lines, one drained line, one
successful sink response. -/
def envW : Env :=
  ⟨ProvResp.ok, ProvResp.ok, true, [], none, ["a"], [SinkResp.ok "t"]⟩

/-- The first streaming batch of the 25-line scenarios. -/
def b1 : List LogEvent := (List.range 10).map (fun i => ⟨i, "x"⟩)

/-- The second streaming batch of the 25-line scenarios. -/
def b2 : List LogEvent := (List.range 10).map (fun i => ⟨i + 10, "x"⟩)

/-- The final partial batch of the 25-line scenarios. -/
def b3 : List LogEvent := (List.range 5).map (fun i => ⟨i + 20, "x"⟩)

theorem pump25_allOk :
    pumpLines lines25 ⟨[], none, [SinkResp.ok "t1", SinkResp.ok "t2", SinkResp.ok "t3"], 0⟩ =
      some ([Ev.call b1 none none, Ev.call b2 (some "t1") (some "t1")],
            ⟨b3, some "t2", [SinkResp.ok "t3"], 25⟩) := by
  simp only [lines25]
  rw [step_buffer, step_buffer, step_buffer, step_buffer, step_buffer,
      step_buffer, step_buffer, step_buffer, step_buffer, step_push_ok,
      step_buffer, step_buffer, step_buffer, step_buffer, step_buffer,
      step_buffer, step_buffer, step_buffer, step_buffer, step_push_ok,
      step_buffer, step_buffer, step_buffer, step_buffer, step_buffer]
  · decide
  all_goals decide

theorem pump25_err2 :
    pumpLines lines25 ⟨[], none, [SinkResp.ok "t1", SinkResp.err, SinkResp.ok "t3"], 0⟩ =
      some ([Ev.call b1 none none, Ev.call b2 (some "t1") (some "t1"), Ev.errPush],
            ⟨b3, some "t1", [SinkResp.ok "t3"], 25⟩) := by
  simp only [lines25]
  rw [step_buffer, step_buffer, step_buffer, step_buffer, step_buffer,
      step_buffer, step_buffer, step_buffer, step_buffer, step_push_ok,
      step_buffer, step_buffer, step_buffer, step_buffer, step_buffer,
      step_buffer, step_buffer, step_buffer, step_buffer, step_push_err,
      step_buffer, step_buffer, step_buffer, step_buffer, step_buffer]
  · decide
  all_goals decide

theorem pump11 :
    pumpLines ["x", "x", "x", "x", "x", "x", "x", "x", "x", "x", "x"]
        ⟨[], none, [SinkResp.ok "t1", SinkResp.ok "t2"], 0⟩ =
      some ([Ev.call b1 none none],
            ⟨[⟨10, "x"⟩], some "t1", [SinkResp.ok "t2"], 11⟩) := by
  rw [step_buffer, step_buffer, step_buffer, step_buffer, step_buffer,
      step_buffer, step_buffer, step_buffer, step_buffer, step_push_ok,
      step_buffer]
  · decide
  all_goals decide

theorem mainRun_env25_eq :
    mainRun env25 =
      some ([Ev.call b1 none none, Ev.call b2 (some "t1") (some "t1"),
             Ev.call b3 (some "t2") (some "t2"), Ev.stop, Ev.remove], Except.ok ()) := by
  have hp : push_log_events b3 [SinkResp.ok "t3"] (some "t2") =
      some ([Ev.call b3 (some "t2") (some "t2")], some "t3", []) := by decide
  have hb : b3.isEmpty = false := by decide
  have hbody : innerBody env25 ⟨[], none, env25.script, 0⟩ =
      some ([Ev.call b1 none none, Ev.call b2 (some "t1") (some "t1"),
             Ev.call b3 (some "t2") (some "t2")],
            Except.ok ⟨b3, some "t2", [], 25⟩) := by
    unfold innerBody
    dsimp only [env25]
    rw [pump25_allOk]
    simp [drain, hb, hp]
  have htry := innerTry_of_bodyOk env25 _ _ _ hbody
  have := mainRun_of_innerTry_ok env25 (by decide) (by decide) (by decide) _ htry
  simpa using this

theorem mainRun_env4_eq :
    mainRun env4 =
      some ([Ev.call b1 none none, Ev.call b2 (some "t1") (some "t1"), Ev.errPush,
             Ev.call b3 (some "t1") (some "t1"), Ev.stop, Ev.remove], Except.ok ()) := by
  have hp : push_log_events b3 [SinkResp.ok "t3"] (some "t1") =
      some ([Ev.call b3 (some "t1") (some "t1")], some "t3", []) := by decide
  have hb : b3.isEmpty = false := by decide
  have hbody : innerBody env4 ⟨[], none, env4.script, 0⟩ =
      some ([Ev.call b1 none none, Ev.call b2 (some "t1") (some "t1"), Ev.errPush,
             Ev.call b3 (some "t1") (some "t1")],
            Except.ok ⟨b3, some "t1", [], 25⟩) := by
    unfold innerBody
    dsimp only [env4]
    rw [pump25_err2]
    simp [drain, hb, hp]
  have htry := innerTry_of_bodyOk env4 _ _ _ hbody
  have := mainRun_of_innerTry_ok env4 (by decide) (by decide) (by decide) _ htry
  simpa using this

theorem innerBody_env5c_eq :
    innerBody env5c ⟨[], none, env5c.script, 0⟩ =
      some ([Ev.call b1 none none, Ev.call [⟨10, "x"⟩] (some "t1") (some "t1")],
            Except.ok ⟨[⟨10, "x"⟩], some "t1", [], 11⟩) := by
  have hp : push_log_events [(⟨10, "x"⟩ : LogEvent)] [SinkResp.ok "t2"] (some "t1") =
      some ([Ev.call [⟨10, "x"⟩] (some "t1") (some "t1")], some "t2", []) := by decide
  unfold innerBody
  dsimp only [env5c]
  rw [pump11]
  simp [drain, hp]

/-- Master delivery lemma for the inner body under an always-successful
sink: the pushed batches concatenate to exactly the accepted events of
the primary stream followed by the accepted events of the drain read,
and every batch except possibly the last one has exactly 10 events. -/
theorem innerBody_allOk (env : Env) (toks : List String)
    (he : env.streamErr = none)
    (hscript : env.script = toks.map SinkResp.ok)
    (hlen : env.streamLines.length + 1 ≤ toks.length) :
    ∃ t st', innerBody env ⟨[], none, env.script, 0⟩ = some (t, Except.ok st') ∧
      (callBatches t).flatten =
        drain 0 env.streamLines ++ drain env.streamLines.length env.drainLines ∧
      (∀ b ∈ (callBatches t).dropLast, b.length = 10) := by
  obtain ⟨t1, st1, k, hrun, hk, hs1, h91, heq⟩ :=
    pumpLines_allOk env.streamLines toks ⟨[], none, env.script, 0⟩
      (by simpa using hscript) (by omega) (by simp)
  obtain ⟨_, _, _, hclk, _, _, _, _, hinv⟩ := pumpLines_spec env.streamLines _ _ _ hrun
  have hb1 : ∀ b ∈ callBatches t1, b.length = 10 := (hinv (by simp)).2
  simp only [List.nil_append] at heq
  have hclk' : st1.clock = env.streamLines.length := by simpa using hclk
  unfold innerBody
  rw [hrun, he]
  dsimp only
  rw [hclk']
  by_cases hbuf : (st1.log_events ++ drain env.streamLines.length env.drainLines).isEmpty
  · rw [if_pos hbuf]
    obtain ⟨hlog, hdr⟩ : st1.log_events = [] ∧ drain env.streamLines.length env.drainLines = [] := by
      simpa [List.isEmpty_iff] using hbuf
    refine ⟨t1, _, rfl, ?_, ?_⟩
    · rw [hdr]
      rw [hlog, List.append_nil] at heq
      simpa using heq
    · intro b hb
      exact hb1 b ((List.dropLast_sublist (callBatches t1)).subset hb)
  · rw [if_neg hbuf]
    have hne : st1.log_events ++ drain env.streamLines.length env.drainLines ≠ [] := by
      simpa [List.isEmpty_iff] using hbuf
    have hdk : toks.drop k ≠ [] := by
      have : (toks.drop k).length = toks.length - k := List.length_drop k toks
      intro hcon
      rw [hcon] at this
      simp at this
      omega
    obtain ⟨m, mrest, hmk⟩ := List.exists_cons_of_ne_nil hdk
    have hscript1 : st1.script =
        SinkResp.ok m :: mrest.map SinkResp.ok := by rw [hs1, hmk]; simp
    rw [hscript1, push_log_events_ne_ok _ hne m _ _]
    dsimp only
    refine ⟨_, _, rfl, ?_, ?_⟩
    · rw [callBatches_append, List.flatten_append]
      simp only [callBatches, List.flatten_cons, List.flatten_nil, List.append_nil]
      rw [← List.append_assoc, heq]
    · intro b hbm
      rw [callBatches_append] at hbm
      simp only [callBatches] at hbm
      have hdl : (callBatches t1 ++
          [st1.log_events ++ drain env.streamLines.length env.drainLines]).dropLast =
            callBatches t1 := by simp
      rw [hdl] at hbm
      exact hb1 b hbm

/-- Master delivery lemma at the `mainRun` level for an acquired handle
and an always-successful, long-enough sink script. -/
theorem mainRun_allOk_delivery (env : Env) (toks : List String) (t : List Ev)
    (r : Except Exc Unit)
    (hg : env.groupResp ≠ ProvResp.fail) (hs : env.streamResp ≠ ProvResp.fail)
    (hr : env.runOk = true) (he : env.streamErr = none)
    (hscript : env.script = toks.map SinkResp.ok)
    (hlen : env.streamLines.length + 1 ≤ toks.length)
    (h : mainRun env = some (t, r)) :
    r = Except.ok () ∧
    (callBatches t).flatten =
      drain 0 env.streamLines ++ drain env.streamLines.length env.drainLines ∧
    (∀ b ∈ (callBatches t).dropLast, b.length = 10) := by
  obtain ⟨t0, st', hbody, hflat, hsz⟩ := innerBody_allOk env toks he hscript hlen
  have htry := innerTry_of_bodyOk env _ _ _ hbody
  have hm := mainRun_of_innerTry_ok env hg hs hr _ htry
  rw [hm] at h
  obtain ⟨ht, hr'⟩ : t0 ++ [Ev.stop, Ev.remove] = t ∧ Except.ok () = r := by
    constructor <;> [exact congrArg Prod.fst (Option.some.inj h);
                     exact congrArg Prod.snd (Option.some.inj h)]
  subst ht
  subst hr'
  have hcb : callBatches (t0 ++ [Ev.stop, Ev.remove]) = callBatches t0 := by
    rw [callBatches_append]; simp [callBatches]
  exact ⟨rfl, by rw [hcb]; exact hflat, by rw [hcb]; exact hsz⟩

/-- Cursor chaining inside the inner body: every network call carries
the cursor dictated by the previously consumed sink responses. -/
theorem innerBody_chain (env : Env) (st : St) (t : List Ev) (r : Except Exc St)
    (h : innerBody env st = some (t, r)) :
    ∃ k, k ≤ st.script.length ∧
      callCursors t = cursorChain st.sequence_token (st.script.take k) := by
  unfold innerBody at h
  cases h1 : pumpLines env.streamLines st with
  | none => rw [h1] at h; exact absurd h (by simp)
  | some r1 =>
    rw [h1] at h
    obtain ⟨t1, st1⟩ := r1
    dsimp only at h
    obtain ⟨k1, hk1, hs1, _, hcc1, hca1, _, _, _⟩ := pumpLines_spec env.streamLines st t1 st1 h1
    cases he : env.streamErr with
    | some e =>
      rw [he] at h
      obtain ⟨rfl, -⟩ : t = t1 ∧ r = Except.error e := by simpa using h.symm
      exact ⟨k1, hk1, hcc1⟩
    | none =>
      rw [he] at h
      dsimp only at h
      by_cases hbuf : (st1.log_events ++ drain st1.clock env.drainLines).isEmpty
      · rw [if_pos hbuf] at h
        obtain ⟨rfl, -⟩ := by simpa using h.symm
        exact ⟨k1, hk1, hcc1⟩
      · rw [if_neg hbuf] at h
        cases h2 : push_log_events (st1.log_events ++ drain st1.clock env.drainLines)
            st1.script st1.sequence_token with
        | none => rw [h2] at h; exact absurd h (by simp)
        | some r2 =>
          rw [h2] at h
          obtain ⟨t2, c2, s2⟩ := r2
          dsimp only at h
          obtain ⟨rfl, -⟩ : t = t1 ++ t2 ∧ r = Except.ok _ := by simpa using h.symm
          have hne : st1.log_events ++ drain st1.clock env.drainLines ≠ [] := by
            simpa [List.isEmpty_iff] using hbuf
          obtain ⟨k2, _, hk2, _, _, _, hcc2, _, _, _, _⟩ :=
            push_log_events_spec _ hne _ _ _ _ _ h2
          rw [hs1] at hk2 hcc2
          rw [hca1] at hcc2
          refine ⟨k1 + k2, ?_, ?_⟩
          · have := List.length_drop k1 st.script
            omega
          · rw [callCursors_append, hcc1, hcc2, List.take_add, cursorChain_append]

/-! ## Claim theorems -/

/-- C6: `append` with an empty batch is a no-op — for every cursor
value and every sink state, `push_log_events` with an empty batch
returns the cursor unchanged, emits no observable event (in particular
no network call), and leaves the sink script untouched (no state
change at the sink). -/
theorem empty_batch_noop (script : List SinkResp) (tok : Option String) :
    push_log_events [] script tok = some ([], tok, script) :=
  push_log_events_nil script tok

/-- C3: if the sink throttles the first `K` append attempts and then
succeeds, `push_log_events` performs `K + 1` network calls all with the
identical batch and identical cursor, sleeps a fixed 2 time units after
each throttled call (exactly `K` delays, no backoff growth), consumes
exactly the `K + 1` scripted responses — so the batch is submitted
exactly once successfully, neither duplicated nor dropped — and
returns the sink's next cursor.  `K` is universally quantified, so the
retries continue without any cap. -/
theorem throttle_retry_fixed_delay (K : Nat) (evts : List LogEvent) (tok : Option String)
    (next : String) (hne : evts ≠ []) :
    push_log_events evts (List.replicate K SinkResp.throttle ++ [SinkResp.ok next]) tok =
      some ((List.replicate K [Ev.call evts tok (tokenParam tok), Ev.warnThrottle,
              Ev.sleep 2]).flatten ++ [Ev.call evts tok (tokenParam tok)],
            some next, []) ∧
    ((List.replicate K [Ev.call evts tok (tokenParam tok), Ev.warnThrottle,
        Ev.sleep 2]).flatten ++ [Ev.call evts tok (tokenParam tok)]).count (Ev.sleep 2) = K ∧
    ((List.replicate K [Ev.call evts tok (tokenParam tok), Ev.warnThrottle,
        Ev.sleep 2]).flatten ++ [Ev.call evts tok (tokenParam tok)]).count
          (Ev.call evts tok (tokenParam tok)) = K + 1 := by
  induction K with
  | zero =>
    refine ⟨?_, by simp, by simp⟩
    simpa using push_log_events_ne_ok evts hne next [] tok
  | succ n ih =>
    obtain ⟨h1, h2, h3⟩ := ih
    have hT : ((List.replicate (n + 1) [Ev.call evts tok (tokenParam tok), Ev.warnThrottle,
          Ev.sleep 2]).flatten ++ [Ev.call evts tok (tokenParam tok)]) =
        Ev.call evts tok (tokenParam tok) :: Ev.warnThrottle :: Ev.sleep 2 ::
          ((List.replicate n [Ev.call evts tok (tokenParam tok), Ev.warnThrottle,
              Ev.sleep 2]).flatten ++ [Ev.call evts tok (tokenParam tok)]) := by
      simp [List.replicate_succ]
    refine ⟨?_, ?_, ?_⟩
    · rw [List.replicate_succ, List.cons_append, push_log_events_ne_throttle evts hne, h1, hT]
      rfl
    · rw [hT]
      simp only [List.count_cons, h2]
      simp
    · rw [hT]
      simp only [List.count_cons, h3]
      simp

/-- C3 witness: two throttled attempts followed by success, on a
concrete one-event batch with cursor `None`. -/
theorem throttle_retry_fixed_delay_witness :
    push_log_events [⟨0, "m"⟩]
        (List.replicate 2 SinkResp.throttle ++ [SinkResp.ok "t"]) none =
      some ((List.replicate 2 [Ev.call [⟨0, "m"⟩] none (tokenParam none), Ev.warnThrottle,
              Ev.sleep 2]).flatten ++ [Ev.call [⟨0, "m"⟩] none (tokenParam none)],
            some "t", []) ∧
    ((List.replicate 2 [Ev.call [⟨0, "m"⟩] none (tokenParam none), Ev.warnThrottle,
        Ev.sleep 2]).flatten ++ [Ev.call [⟨0, "m"⟩] none (tokenParam none)]).count
          (Ev.sleep 2) = 2 ∧
    ((List.replicate 2 [Ev.call [⟨0, "m"⟩] none (tokenParam none), Ev.warnThrottle,
        Ev.sleep 2]).flatten ++ [Ev.call [⟨0, "m"⟩] none (tokenParam none)]).count
          (Ev.call [⟨0, "m"⟩] none (tokenParam none)) = 2 + 1 :=
  throttle_retry_fixed_delay 2 [⟨0, "m"⟩] none "t" (by decide)

/-- C4: on a non-throttling remote failure `push_log_events` makes a
single call, logs the error, does not retry or requeue, and returns the
input cursor unchanged; and in the 25-line run `env4` whose second
append fails that way, batch 2 is abandoned after being attempted with
cursor `"t1"`, and batch 3 (the drain flush) is still pushed using that
same cursor `"t1"` returned by batch 1's success. -/
theorem non_throttling_abandon :
    (∀ (evts : List LogEvent) (rest : List SinkResp) (tok : Option String),
        evts ≠ [] →
        push_log_events evts (SinkResp.err :: rest) tok =
          some ([Ev.call evts tok (tokenParam tok), Ev.errPush], tok, rest)) ∧
    mainRun env4 =
      some ([Ev.call b1 none none, Ev.call b2 (some "t1") (some "t1"), Ev.errPush,
             Ev.call b3 (some "t1") (some "t1"), Ev.stop, Ev.remove], Except.ok ()) ∧
    callCursors [Ev.call b1 none none, Ev.call b2 (some "t1") (some "t1"), Ev.errPush,
        Ev.call b3 (some "t1") (some "t1"), Ev.stop, Ev.remove] =
      [none, some "t1", some "t1"] ∧
    [Ev.call b1 none none, Ev.call b2 (some "t1") (some "t1"), Ev.errPush,
        Ev.call b3 (some "t1") (some "t1"), Ev.stop, Ev.remove].count Ev.errPush = 1 :=
  ⟨fun evts rest tok hne => push_log_events_ne_err evts hne rest tok,
   mainRun_env4_eq, by decide, by decide⟩

/-- C4 witness: the general clause applied to a concrete one-event
batch, a non-throttling error response, and cursor `None`. -/
theorem non_throttling_abandon_witness :
    push_log_events [⟨0, "m"⟩] [SinkResp.err] none =
      some ([Ev.call [⟨0, "m"⟩] none none, Ev.errPush], none, []) :=
  non_throttling_abandon.1 [⟨0, "m"⟩] [] none (by decide)

/-- C10: the `sequenceToken` parameter is included in the sink call iff
the held cursor is truthy in Python's sense: `None` is omitted, the
empty string — even when the sink returned it — is omitted, and any
non-empty token is passed through; in every push, all calls carry
exactly that parameter.  The last clause shows the chain restarting:
after a sink returns `""`, the next call omits the parameter. -/
theorem sequence_token_truthiness :
    (tokenParam none = none ∧ tokenParam (some "") = none ∧
      ∀ s : String, s ≠ "" → tokenParam (some s) = some s) ∧
    (∀ (evts : List LogEvent) (script : List SinkResp) (tok : Option String)
        (t : List Ev) (c : Option String) (s : List SinkResp),
        push_log_events evts script tok = some (t, c, s) →
        callTokens t = List.replicate (callTokens t).length (tokenParam tok)) ∧
    push_log_events [⟨0, "a"⟩] [SinkResp.ok ""] none =
      some ([Ev.call [⟨0, "a"⟩] none none], some "", []) ∧
    push_log_events [⟨1, "b"⟩] [SinkResp.ok "t2"] (some "") =
      some ([Ev.call [⟨1, "b"⟩] (some "") none], some "t2", []) := by
  refine ⟨⟨rfl, rfl, ?_⟩, ?_, by decide, by decide⟩
  · intro s hs
    have hemp : s.isEmpty = false := by
      cases h : s.isEmpty with
      | true => exact absurd ((String.isEmpty_iff s).mp h) hs
      | false => rfl
    simp [tokenParam, truthy, hemp]
  · intro evts script tok t c s h
    cases evts with
    | nil =>
      rw [push_log_events_nil] at h
      obtain ⟨rfl, -, -⟩ : t = [] ∧ c = tok ∧ s = script := by simpa using h.symm
      simp [callTokens]
    | cons e es =>
      obtain ⟨k, _, _, _, _, _, _, htk, _, _, _⟩ :=
        push_log_events_spec (e :: es) (by simp) script tok t c s h
      rw [htk]
      simp

/-- C10 witness: the general clause applied to a concrete push with
cursor `None`, plus the truthiness of a concrete non-empty token. -/
theorem sequence_token_truthiness_witness :
    callTokens [Ev.call [⟨0, "a"⟩] none none] =
      List.replicate (callTokens [Ev.call [⟨0, "a"⟩] none none]).length (tokenParam none) ∧
    tokenParam (some "tok") = some "tok" :=
  ⟨sequence_token_truthiness.2.1 [⟨0, "a"⟩] [SinkResp.ok ""] none
      [Ev.call [⟨0, "a"⟩] none none] (some "") [] (by decide),
   sequence_token_truthiness.1.2.2 "tok" (by decide)⟩

/-- C9: no error originating inside the pipeline escapes the
orchestrator boundary: whenever `main` terminates, its result is the
handled terminal state, never an escaped exception — every modelled
error (provisioning `ClientError`, container-start `DockerException`,
mid-stream `APIError` or any other exception) is caught by some
`except` clause. -/
theorem no_escaping_errors (env : Env) (t : List Ev) (r : Except Exc Unit)
    (h : mainRun env = some (t, r)) : r = Except.ok () := by
  unfold mainRun at h
  cases hb : mainBody env with
  | none => rw [hb] at h; exact absurd h (by simp)
  | some p =>
    rw [hb] at h
    obtain ⟨t0, r0⟩ := p
    cases r0 with
    | ok u =>
      cases u
      obtain ⟨-, rfl⟩ : t0 = t ∧ Except.ok () = r := by simpa using h
      rfl
    | error e =>
      cases e <;> simp only [outerHandler] at h <;>
        (obtain ⟨-, rfl⟩ : _ ∧ Except.ok () = r := by simpa using h) <;> rfl

/-- C9 witness: a concrete normal run terminates in the handled `ok`
state. -/
theorem no_escaping_errors_witness :
    mainRun envW = some ([Ev.call [⟨0, "a"⟩] none none, Ev.stop, Ev.remove],
      Except.ok ()) ∧
    (Except.ok () : Except Exc Unit) = Except.ok () := by
  have h : mainRun envW = some ([Ev.call [⟨0, "a"⟩] none none, Ev.stop, Ev.remove],
      Except.ok ()) := by decide
  exact ⟨h, no_escaping_errors envW _ _ h⟩

/-- C2: on every terminating run, if a container handle was acquired
(provisioning succeeded and the container started) the trace contains
`stop` exactly once and `remove` exactly once, adjacent and in that
order — on every terminal path: normal completion, mid-stream error,
or a later handled error; if no handle was acquired, neither `stop`
nor `remove` occurs. -/
theorem cleanup_exactly_once (env : Env) (t : List Ev) (r : Except Exc Unit)
    (h : mainRun env = some (t, r)) :
    (acquired env = true →
      t.count Ev.stop = 1 ∧ t.count Ev.remove = 1 ∧
      ∃ pre post, t = pre ++ Ev.stop :: Ev.remove :: post) ∧
    (acquired env = false →
      t.count Ev.stop = 0 ∧ t.count Ev.remove = 0) := by
  by_cases hacq : acquired env = true
  · refine ⟨fun _ => ?_, fun hf => absurd hacq (by simp [hf])⟩
    have hg : env.groupResp ≠ ProvResp.fail := by
      intro hc
      rw [acquired, hc] at hacq
      simp at hacq
    have hs : env.streamResp ≠ ProvResp.fail := by
      intro hc
      rw [acquired, hc] at hacq
      simp at hacq
    have hr : env.runOk = true := by
      rw [acquired] at hacq
      simp at hacq
      exact hacq.2
    rw [mainRun_acquired env hg hs hr] at h
    cases hit : innerTry env ⟨[], none, env.script, 0⟩ with
    | none => rw [hit] at h; exact absurd h (by simp)
    | some p =>
      rw [hit] at h
      obtain ⟨t0, r0⟩ := p
      unfold innerTry at hit
      cases hib : innerBody env ⟨[], none, env.script, 0⟩ with
      | none => rw [hib] at hit; exact absurd hit (by simp)
      | some q =>
        rw [hib] at hit
        obtain ⟨tb, rb⟩ := q
        obtain ⟨hstop, hrem⟩ := innerBody_no_cleanup env _ tb rb hib
        have hcs : tb.count Ev.stop = 0 := List.count_eq_zero.mpr hstop
        have hcr : tb.count Ev.remove = 0 := List.count_eq_zero.mpr hrem
        cases rb with
        | ok st' =>
          dsimp only at hit
          obtain ⟨rfl, rfl⟩ : t0 = tb ++ [Ev.stop, Ev.remove] ∧ r0 = Except.ok () := by
            simpa using hit.symm
          dsimp only at h
          obtain ⟨rfl, -⟩ : tb ++ [Ev.stop, Ev.remove] = t ∧ Except.ok () = r := by
            simpa using h
          refine ⟨?_, ?_, tb, [], by simp⟩ <;>
            simp [List.count_append, List.count_cons, hcs, hcr]
        | error e =>
          cases e with
          | apiError =>
            dsimp only at hit
            obtain ⟨rfl, rfl⟩ :
                t0 = tb ++ [Ev.errApi, Ev.stop, Ev.remove] ∧ r0 = Except.ok () := by
              simpa using hit.symm
            dsimp only at h
            obtain ⟨rfl, -⟩ :
                tb ++ [Ev.errApi, Ev.stop, Ev.remove] = t ∧ Except.ok () = r := by
              simpa using h
            refine ⟨?_, ?_, tb ++ [Ev.errApi], [], by simp⟩ <;>
              simp [List.count_append, List.count_cons, hcs, hcr]
          | dockerErr =>
            dsimp only at hit
            obtain ⟨rfl, rfl⟩ :
                t0 = tb ++ [Ev.stop, Ev.remove] ∧ r0 = Except.error Exc.dockerErr := by
              simpa using hit.symm
            simp only [outerHandler] at h
            obtain ⟨rfl, -⟩ :
                tb ++ [Ev.stop, Ev.remove] ++ [Ev.errDocker] = t ∧ Except.ok () = r := by
              simpa using h
            refine ⟨?_, ?_, tb, [Ev.errDocker], by simp⟩ <;>
              simp [List.count_append, List.count_cons, hcs, hcr]
          | clientErr =>
            dsimp only at hit
            obtain ⟨rfl, rfl⟩ :
                t0 = tb ++ [Ev.stop, Ev.remove] ∧ r0 = Except.error Exc.clientErr := by
              simpa using hit.symm
            simp only [outerHandler] at h
            obtain ⟨rfl, -⟩ :
                tb ++ [Ev.stop, Ev.remove] ++ [Ev.errAws] = t ∧ Except.ok () = r := by
              simpa using h
            refine ⟨?_, ?_, tb, [Ev.errAws], by simp⟩ <;>
              simp [List.count_append, List.count_cons, hcs, hcr]
          | otherErr =>
            dsimp only at hit
            obtain ⟨rfl, rfl⟩ :
                t0 = tb ++ [Ev.stop, Ev.remove] ∧ r0 = Except.error Exc.otherErr := by
              simpa using hit.symm
            simp only [outerHandler] at h
            obtain ⟨rfl, -⟩ :
                tb ++ [Ev.stop, Ev.remove] ++ [Ev.errOther] = t ∧ Except.ok () = r := by
              simpa using h
            refine ⟨?_, ?_, tb, [Ev.errOther], by simp⟩ <;>
              simp [List.count_append, List.count_cons, hcs, hcr]
  · have hf : acquired env = false := by simpa using hacq
    refine ⟨fun htr => absurd htr (by simp [hf]), fun _ => ?_⟩
    rcases mainRun_not_acquired env hf with hm | hm <;> rw [hm] at h <;>
      · obtain ⟨rfl, -⟩ : _ = t ∧ _ = r := by simpa using h
        simp [List.count_cons]

/-- C2 witness: a concrete normal run — acquired handle, trace with
exactly one adjacent `stop`/`remove` pair. -/
theorem cleanup_exactly_once_witness :
    acquired envW = true ∧
    ((acquired envW = true →
      [Ev.call [⟨0, "a"⟩] none none, Ev.stop, Ev.remove].count Ev.stop = 1 ∧
      [Ev.call [⟨0, "a"⟩] none none, Ev.stop, Ev.remove].count Ev.remove = 1 ∧
      ∃ pre post, [Ev.call [⟨0, "a"⟩] none none, Ev.stop, Ev.remove] =
        pre ++ Ev.stop :: Ev.remove :: post) ∧
    (acquired envW = false →
      [Ev.call [⟨0, "a"⟩] none none, Ev.stop, Ev.remove].count Ev.stop = 0 ∧
      [Ev.call [⟨0, "a"⟩] none none, Ev.stop, Ev.remove].count Ev.remove = 0)) := by
  have h : mainRun envW = some ([Ev.call [⟨0, "a"⟩] none none, Ev.stop, Ev.remove],
      Except.ok ()) := by decide
  exact ⟨by decide, cleanup_exactly_once envW _ _ h⟩

/-- C1 (amended): under an always-successful, long-enough sink script,
concatenating the submitted batches in emission order reproduces the
accepted-line sequence exactly (no duplication, no loss), and every
batch except possibly the final one has exactly 10 events — the final
flush (streaming leftover plus all drained lines) is pushed whole and
is not bounded by 10.  In the 25-streamed-line scenario `env25` exactly
two batches of 10 are pushed during streaming and one batch of 5
during draining, threading three chained cursors. -/
theorem batching_order_and_sizes :
    (∀ (env : Env) (toks : List String) (t : List Ev) (r : Except Exc Unit),
        env.groupResp ≠ ProvResp.fail → env.streamResp ≠ ProvResp.fail →
        env.runOk = true → env.streamErr = none →
        env.script = toks.map SinkResp.ok →
        env.streamLines.length + 1 ≤ toks.length →
        mainRun env = some (t, r) →
        ((callBatches t).flatten).map LogEvent.message =
          ((env.streamLines ++ env.drainLines).filter
              (fun l => !(pyStrip l).isEmpty)).map pyStrip ∧
        (∀ b ∈ (callBatches t).dropLast, b.length = 10)) ∧
    mainRun env25 =
      some ([Ev.call b1 none none, Ev.call b2 (some "t1") (some "t1"),
             Ev.call b3 (some "t2") (some "t2"), Ev.stop, Ev.remove], Except.ok ()) ∧
    (callBatches [Ev.call b1 none none, Ev.call b2 (some "t1") (some "t1"),
        Ev.call b3 (some "t2") (some "t2"), Ev.stop, Ev.remove]).map List.length =
      [10, 10, 5] ∧
    callCursors [Ev.call b1 none none, Ev.call b2 (some "t1") (some "t1"),
        Ev.call b3 (some "t2") (some "t2"), Ev.stop, Ev.remove] =
      [none, some "t1", some "t2"] ∧
    pumpLines lines25 ⟨[], none, env25.script, 0⟩ =
      some ([Ev.call b1 none none, Ev.call b2 (some "t1") (some "t1")],
            ⟨b3, some "t2", [SinkResp.ok "t3"], 25⟩) := by
  refine ⟨?_, mainRun_env25_eq, by decide, by decide, pump25_allOk⟩
  intro env toks t r hg hs hr he hscript hlen h
  obtain ⟨-, hflat, hsz⟩ := mainRun_allOk_delivery env toks t r hg hs hr he hscript hlen h
  refine ⟨?_, hsz⟩
  rw [hflat, List.map_append, drain_map_message, drain_map_message,
      List.filter_append, List.map_append]

/-- C1 witness: the general clause applied to a minimal normal run. -/
theorem batching_order_and_sizes_witness :
    mainRun envW = some ([Ev.call [⟨0, "a"⟩] none none, Ev.stop, Ev.remove],
      Except.ok ()) ∧
    ((callBatches [Ev.call [⟨0, "a"⟩] none none, Ev.stop, Ev.remove]).flatten).map
        LogEvent.message =
      ((envW.streamLines ++ envW.drainLines).filter
          (fun l => !(pyStrip l).isEmpty)).map pyStrip := by
  have h : mainRun envW = some ([Ev.call [⟨0, "a"⟩] none none, Ev.stop, Ev.remove],
      Except.ok ()) := by decide
  exact ⟨h, (batching_order_and_sizes.1 envW ["t"] _ _ (by decide) (by decide)
    (by decide) (by decide) (by decide) (by decide) h).1⟩

/-- C1 counterexample: the claim's batch-size bound fails — when the
drain read returns 11 accepted lines, the final flush pushes a single
batch of 11 events, exceeding N = 10. -/
theorem batch_size_bound_counterexample :
    (mainRun env1c).map (fun r => (callBatches r.1).map List.length) = some [11] ∧
    ¬ 11 ≤ 10 := by
  exact ⟨by decide, by decide⟩

/-- C7 (amended): the drain pass performs no deduplication — the
delivered messages are exactly the accepted streamed lines followed by
the accepted drained lines, so each message is delivered once per
occurrence in the two reads combined; disjointness of the two reads is
not enforced by the code. -/
theorem drain_no_dedup
    (env : Env) (toks : List String) (t : List Ev) (r : Except Exc Unit)
    (hg : env.groupResp ≠ ProvResp.fail) (hs : env.streamResp ≠ ProvResp.fail)
    (hr : env.runOk = true) (he : env.streamErr = none)
    (hscript : env.script = toks.map SinkResp.ok)
    (hlen : env.streamLines.length + 1 ≤ toks.length)
    (h : mainRun env = some (t, r)) (m : String) :
    (((callBatches t).flatten).map LogEvent.message).count m =
      ((env.streamLines.filter (fun l => !(pyStrip l).isEmpty)).map pyStrip).count m +
      ((env.drainLines.filter (fun l => !(pyStrip l).isEmpty)).map pyStrip).count m := by
  obtain ⟨-, hflat, -⟩ := mainRun_allOk_delivery env toks t r hg hs hr he hscript hlen h
  rw [hflat, List.map_append, List.count_append, drain_map_message, drain_map_message]

/-- C7 witness: the amended count law on a minimal normal run. -/
theorem drain_no_dedup_witness :
    mainRun envW = some ([Ev.call [⟨0, "a"⟩] none none, Ev.stop, Ev.remove],
      Except.ok ()) ∧
    (((callBatches [Ev.call [⟨0, "a"⟩] none none, Ev.stop, Ev.remove]).flatten).map
        LogEvent.message).count "a" =
      ((envW.streamLines.filter (fun l => !(pyStrip l).isEmpty)).map pyStrip).count "a" +
      ((envW.drainLines.filter (fun l => !(pyStrip l).isEmpty)).map pyStrip).count "a" := by
  have h : mainRun envW = some ([Ev.call [⟨0, "a"⟩] none none, Ev.stop, Ev.remove],
      Except.ok ()) := by decide
  exact ⟨h, drain_no_dedup envW ["t"] _ _ (by decide) (by decide) (by decide)
    (by decide) (by decide) (by decide) h "a"⟩

/-- C7 counterexample: the two reads are not disjoint in general — in
`env7` the primary stream yields the line `"x"` once, the drain read
returns `"x"` again, and the sink receives the message `"x"` twice
(the line consumed by the primary stream is re-emitted). -/
theorem drain_redelivery_counterexample :
    mainRun env7 = some ([Ev.call [⟨0, "x"⟩, ⟨1, "x"⟩] none none, Ev.stop, Ev.remove],
      Except.ok ()) ∧
    env7.streamLines.count "x" = 1 ∧
    (((callBatches [Ev.call [⟨0, "x"⟩, ⟨1, "x"⟩] none none, Ev.stop, Ev.remove]).flatten).map
        LogEvent.message).count "x" = 2 := by
  exact ⟨by decide, by decide, by decide⟩

/-- Specification-side restatement used by the filtering law: each
line contributes no message when its strip is empty and exactly its
stripped text otherwise. -/
theorem filter_map_eq_flatMap (lines : List String) :
    (lines.filter (fun l => !(pyStrip l).isEmpty)).map pyStrip =
      lines.flatMap (fun l => if (pyStrip l).isEmpty = true then [] else [pyStrip l]) := by
  induction lines with
  | nil => rfl
  | cons l ls ih =>
    cases hm : (pyStrip l).isEmpty with
    | true => simp [List.filter_cons, hm, ih]
    | false => simp [List.filter_cons, hm, ih]

/-- C8: an empty or whitespace-only line produces no `LogEvent` — the
streaming loop leaves the buffer untouched and emits nothing, and the
drain comprehension contributes nothing — while every other line
produces exactly one event; consequently on a normal run the delivered
messages are, line by line, zero or one per input line of the two
passes. -/
theorem line_filtering :
    (∀ (st : St) (l : String), (pyStrip l).isEmpty = true →
        pumpLine st l = some ([], { st with clock := st.clock + 1 })) ∧
    (∀ (clk : Nat) (l : String) (ls : List String),
        drain clk (l :: ls) =
          (if (pyStrip l).isEmpty = true then [] else [⟨clk, pyStrip l⟩]) ++
            drain (clk + 1) ls) ∧
    (∀ (env : Env) (toks : List String) (t : List Ev) (r : Except Exc Unit),
        env.groupResp ≠ ProvResp.fail → env.streamResp ≠ ProvResp.fail →
        env.runOk = true → env.streamErr = none →
        env.script = toks.map SinkResp.ok →
        env.streamLines.length + 1 ≤ toks.length →
        mainRun env = some (t, r) →
        ((callBatches t).flatten).map LogEvent.message =
          (env.streamLines ++ env.drainLines).flatMap
            (fun l => if (pyStrip l).isEmpty = true then [] else [pyStrip l])) := by
  refine ⟨?_, ?_, ?_⟩
  · intro st l hm
    simp [pumpLine, hm]
  · intro clk l ls
    cases hm : (pyStrip l).isEmpty <;> simp [drain, hm]
  · intro env toks t r hg hs hr he hscript hlen h
    obtain ⟨-, hflat, -⟩ := mainRun_allOk_delivery env toks t r hg hs hr he hscript hlen h
    rw [hflat, List.map_append, drain_map_message, drain_map_message,
        filter_map_eq_flatMap, filter_map_eq_flatMap, List.flatMap_append]

/-- C8 witness: a whitespace-only line is dropped by the streaming
loop, and the per-line law on a minimal normal run. -/
theorem line_filtering_witness :
    pumpLine ⟨[], none, [], 0⟩ "  " = some ([], ⟨[], none, [], 1⟩) ∧
    drain 0 [" ", "a"] = [⟨1, "a"⟩] ∧
    mainRun envW = some ([Ev.call [⟨0, "a"⟩] none none, Ev.stop, Ev.remove],
      Except.ok ()) ∧
    ((callBatches [Ev.call [⟨0, "a"⟩] none none, Ev.stop, Ev.remove]).flatten).map
        LogEvent.message =
      (envW.streamLines ++ envW.drainLines).flatMap
        (fun l => if (pyStrip l).isEmpty = true then [] else [pyStrip l]) := by
  have h : mainRun envW = some ([Ev.call [⟨0, "a"⟩] none none, Ev.stop, Ev.remove],
      Except.ok ()) := by decide
  exact ⟨line_filtering.1 ⟨[], none, [], 0⟩ "  " (by decide), by decide, h,
    line_filtering.2.2 envW ["t"] _ _ (by decide) (by decide) (by decide) (by decide)
      (by decide) (by decide) h⟩

/-- On an acquired handle, the network calls of the whole run are
exactly the network calls of the inner body (the cleanup and the outer
error logging add no call). -/
theorem mainRun_callCursors (env : Env) (t : List Ev) (r : Except Exc Unit)
    (hg : env.groupResp ≠ ProvResp.fail) (hs : env.streamResp ≠ ProvResp.fail)
    (hr : env.runOk = true) (h : mainRun env = some (t, r)) :
    ∃ tb rb, innerBody env ⟨[], none, env.script, 0⟩ = some (tb, rb) ∧
      callCursors t = callCursors tb := by
  rw [mainRun_acquired env hg hs hr] at h
  cases hit : innerTry env ⟨[], none, env.script, 0⟩ with
  | none => rw [hit] at h; exact absurd h (by simp)
  | some p =>
    rw [hit] at h
    obtain ⟨t0, r0⟩ := p
    unfold innerTry at hit
    cases hib : innerBody env ⟨[], none, env.script, 0⟩ with
    | none => rw [hib] at hit; exact absurd hit (by simp)
    | some q =>
      rw [hib] at hit
      obtain ⟨tb, rb⟩ := q
      refine ⟨tb, rb, rfl, ?_⟩
      cases rb with
      | ok st' =>
        dsimp only at hit
        obtain ⟨rfl, rfl⟩ : t0 = tb ++ [Ev.stop, Ev.remove] ∧ r0 = Except.ok () := by
          simpa using hit.symm
        dsimp only at h
        obtain ⟨rfl, -⟩ : tb ++ [Ev.stop, Ev.remove] = t ∧ Except.ok () = r := by
          simpa using h
        rw [callCursors_append]
        simp [callCursors]
      | error e =>
        cases e with
        | apiError =>
          dsimp only at hit
          obtain ⟨rfl, rfl⟩ :
              t0 = tb ++ [Ev.errApi, Ev.stop, Ev.remove] ∧ r0 = Except.ok () := by
            simpa using hit.symm
          dsimp only at h
          obtain ⟨rfl, -⟩ :
              tb ++ [Ev.errApi, Ev.stop, Ev.remove] = t ∧ Except.ok () = r := by
            simpa using h
          rw [callCursors_append]
          simp [callCursors]
        | dockerErr =>
          dsimp only at hit
          obtain ⟨rfl, rfl⟩ :
              t0 = tb ++ [Ev.stop, Ev.remove] ∧ r0 = Except.error Exc.dockerErr := by
            simpa using hit.symm
          simp only [outerHandler] at h
          obtain ⟨rfl, -⟩ :
              tb ++ [Ev.stop, Ev.remove] ++ [Ev.errDocker] = t ∧ Except.ok () = r := by
            simpa using h
          rw [callCursors_append, callCursors_append]
          simp [callCursors]
        | clientErr =>
          dsimp only at hit
          obtain ⟨rfl, rfl⟩ :
              t0 = tb ++ [Ev.stop, Ev.remove] ∧ r0 = Except.error Exc.clientErr := by
            simpa using hit.symm
          simp only [outerHandler] at h
          obtain ⟨rfl, -⟩ :
              tb ++ [Ev.stop, Ev.remove] ++ [Ev.errAws] = t ∧ Except.ok () = r := by
            simpa using h
          rw [callCursors_append, callCursors_append]
          simp [callCursors]
        | otherErr =>
          dsimp only at hit
          obtain ⟨rfl, rfl⟩ :
              t0 = tb ++ [Ev.stop, Ev.remove] ∧ r0 = Except.error Exc.otherErr := by
            simpa using hit.symm
          simp only [outerHandler] at h
          obtain ⟨rfl, -⟩ :
              tb ++ [Ev.stop, Ev.remove] ++ [Ev.errOther] = t ∧ Except.ok () = r := by
            simpa using h
          rw [callCursors_append, callCursors_append]
          simp [callCursors]

/-- C5 (amended): cursor chaining holds at every network call — each
call of a run carries exactly the cursor dictated by the previously
consumed sink responses (the next cursor after a success, the
unchanged cursor after an abandoned or throttled attempt), starting
from `None`; and during the streaming loop the orchestrator's held
cursor always equals the cursor after the consumed responses.  (The
final drain append's returned cursor is discarded — see the
counterexample.) -/
theorem cursor_chaining :
    (∀ (env : Env) (t : List Ev) (r : Except Exc Unit),
        mainRun env = some (t, r) →
        ∃ k, k ≤ env.script.length ∧
          callCursors t = cursorChain none (env.script.take k)) ∧
    (∀ (lines : List String) (st : St) (t : List Ev) (st' : St),
        pumpLines lines st = some (t, st') →
        ∃ k, k ≤ st.script.length ∧
          callCursors t = cursorChain st.sequence_token (st.script.take k) ∧
          st'.sequence_token = cursorAfter st.sequence_token (st.script.take k)) := by
  constructor
  · intro env t r h
    by_cases hacq : acquired env = true
    · have hg : env.groupResp ≠ ProvResp.fail := by
        intro hc
        rw [acquired, hc] at hacq
        simp at hacq
      have hs : env.streamResp ≠ ProvResp.fail := by
        intro hc
        rw [acquired, hc] at hacq
        simp at hacq
      have hr : env.runOk = true := by
        rw [acquired] at hacq
        simp at hacq
        exact hacq.2
      obtain ⟨tb, rb, hib, hcc⟩ := mainRun_callCursors env t r hg hs hr h
      obtain ⟨k, hk, hchain⟩ := innerBody_chain env _ tb rb hib
      exact ⟨k, by simpa using hk, by rw [hcc]; simpa using hchain⟩
    · have hf : acquired env = false := by simpa using hacq
      rcases mainRun_not_acquired env hf with hm | hm <;> rw [hm] at h <;>
        · obtain ⟨rfl, -⟩ : _ = t ∧ _ = r := by simpa using h
          exact ⟨0, by simp, by simp [callCursors, cursorChain]⟩
  · intro lines st t st' h
    obtain ⟨k, hk, _, _, hcc, hca, _, _, _⟩ := pumpLines_spec lines st t st' h
    exact ⟨k, hk, hcc, hca⟩

/-- C5 witness: the chaining law on a minimal normal run, and the
streaming-level law on a concrete pump. -/
theorem cursor_chaining_witness :
    mainRun envW = some ([Ev.call [⟨0, "a"⟩] none none, Ev.stop, Ev.remove],
      Except.ok ()) ∧
    (∃ k, k ≤ envW.script.length ∧
      callCursors [Ev.call [⟨0, "a"⟩] none none, Ev.stop, Ev.remove] =
        cursorChain none (envW.script.take k)) := by
  have h : mainRun envW = some ([Ev.call [⟨0, "a"⟩] none none, Ev.stop, Ev.remove],
      Except.ok ()) := by decide
  exact ⟨h, cursor_chaining.1 envW _ _ h⟩

/-- C5 counterexample: the orchestrator does not update its held
cursor after the final drain append.  In `env5c` both scripted
responses are consumed (the final state's script is empty), so the
drain append returned the sink's cursor `"t2"`; yet the held
`sequence_token` of the final state is still `"t1"`, refuting "the
orchestrator updates its held cursor after every append attempt". -/
theorem held_cursor_not_updated_counterexample :
    innerBody env5c ⟨[], none, env5c.script, 0⟩ =
      some ([Ev.call b1 none none, Ev.call [⟨10, "x"⟩] (some "t1") (some "t1")],
            Except.ok ⟨[⟨10, "x"⟩], some "t1", [], 11⟩) ∧
    env5c.script = [SinkResp.ok "t1", SinkResp.ok "t2"] ∧
    (some "t1" : Option String) ≠ some "t2" :=
  ⟨innerBody_env5c_eq, rfl, by decide⟩

example : pyStrip "  hi \n" = "hi" := by decide
example : pyStrip " \t " = "" := by decide
example : truthy (some "") = false := by decide
example : push_log_events [] [SinkResp.err] (some "a") = some ([], some "a", [SinkResp.err]) := by
  decide
example :
    push_log_events [⟨0, "m"⟩] [SinkResp.throttle, SinkResp.ok "t"] none =
      some ([Ev.call [⟨0, "m"⟩] none none, Ev.warnThrottle, Ev.sleep 2,
             Ev.call [⟨0, "m"⟩] none none], some "t", []) := by
  decide

end LogShipper
